import Mathlib

/-!
Verification of the workflow-execution core of the Workflow Builder backend
(`backend/app/main.py`): graph-topology validation, retrieval-augmented
context assembly, prompt composition, provider dispatch, throttle admission,
and the chat-run orchestrator.  Python functions are shallowly embedded as
executable Lean definitions; external collaborators (embedding, vector store,
LLM backends, web search, persistence) are oracles supplied through an
environment record, and every collaborator invocation is recorded in an
explicit call trace so that "no external call happens" properties are provable.
-/

/-- Per-node config bag mirroring `ComponentConfig.params` (`params: Dict[str, Any]`).
Only the keys the core actually reads are modelled; all are optional, matching
`dict.get`.  Values the code treats with Python truthiness are handled at use
sites. -/
structure Params where
  collectionName : Option String := none
  topK : Option Int := none
  embeddingModel : Option String := none
  provider : Option String := none
  model : Option String := none
  prompt : Option String := none
  webSearch : Option Bool := none
deriving Repr, DecidableEq

/-- `ComponentConfig`: a workflow node (`id`, `type`, `params`).  The display
`position` field is never read by the core logic and is omitted. -/
structure ComponentConfig where
  id : String
  type : String
  params : Params := {}
deriving Repr, DecidableEq

/-- `Edge`: a directed edge between node ids.  The opaque `data` mapping is
never read by the core logic. -/
structure Edge where
  id : Option String := none
  source : String
  target : String
deriving Repr, DecidableEq

/-- `WorkflowDefinition`: nodes plus edges as submitted by the client. -/
structure WorkflowDefinition where
  nodes : List ComponentConfig
  edges : List Edge
deriving Repr, DecidableEq

/-- Node ids of a workflow (`node_ids = {n.id for n in payload.nodes}`;
only membership is ever used, so a list is an adequate model of the set). -/
def nodeIds (nodes : List ComponentConfig) : List String :=
  nodes.map (fun n => n.id)

/-- Edge-endpoint check from `validate_topology`: every edge's `source` and
`target` must exist among node ids.  The Python loop raises the same message
at the first bad edge, so `all` gives the same accept/reject behaviour. -/
def edgesValid (w : WorkflowDefinition) : Bool :=
  w.edges.all (fun e => (nodeIds w.nodes).contains e.source && (nodeIds w.nodes).contains e.target)

/-- The `by_type` dictionary build from `validate_topology`: insert each node
keyed by its `type`, failing on the first duplicate type string. -/
def buildByType : List ComponentConfig → List (String × ComponentConfig) →
    Except String (List (String × ComponentConfig))
  | [], acc => .ok acc
  | n :: rest, acc =>
    if (acc.lookup n.type).isSome then
      .error ("Only one " ++ n.type ++ " node is allowed for now")
    else
      buildByType rest (acc ++ [(n.type, n)])

/-- Adjacency targets of a node: `adjacency[src]` as built by appending
`edge.target` for each edge in submission order. -/
def adjTargets (edges : List Edge) (s : String) : List String :=
  (edges.filter (fun e => e.source == s)).map (fun e => e.target)

/-- The BFS worklist loop of `validate_topology`, with explicit fuel: pop the
queue head, skip it if already visited, otherwise mark it visited and push its
adjacency targets.  `bfs` below supplies fuel proven sufficient, so the fuel is
an artifact of totality only (see `bfsAux_add_fuel`). -/
def bfsAux (edges : List Edge) : Nat → List String → List String → List String
  | 0, _, visited => visited
  | _ + 1, [], visited => visited
  | fuel + 1, c :: rest, visited =>
    if visited.contains c then
      bfsAux edges fuel rest visited
    else
      bfsAux edges fuel (rest ++ adjTargets edges c) (c :: visited)

/-- The BFS of `validate_topology`, started from the query-source node id with
an empty visited set.  `edges.length + 1` fuel dominates the loop potential of
the initial state, so by `bfsAux_add_fuel` this equals the un-fuelled loop. -/
def bfs (edges : List Edge) (start : String) : List String :=
  bfsAux edges (edges.length + 1) [start] []

/-- `validate_topology`: the structural checks in source order — nonempty
nodes, nonempty edges, known edge endpoints, at most one node per type string,
the three required types present, and reachability of the LLM and output nodes
from the user-query node over directed edges. -/
def validateTopology (w : WorkflowDefinition) :
    Except String (List (String × ComponentConfig)) :=
  if w.nodes.isEmpty then .error "Workflow must have at least one node"
  else if w.edges.isEmpty then .error "Workflow must have at least one edge"
  else if !edgesValid w then .error "Edges reference unknown nodes"
  else
    match buildByType w.nodes [] with
    | .error e => .error e
    | .ok byType =>
      match byType.lookup "user_query" with
      | none => .error "Missing required node: user_query"
      | some uq =>
        match byType.lookup "llm_engine" with
        | none => .error "Missing required node: llm_engine"
        | some llm =>
          match byType.lookup "output" with
          | none => .error "Missing required node: output"
          | some outNode =>
            let visited := bfs w.edges uq.id
            if visited.contains llm.id && visited.contains outNode.id then
              .ok byType
            else
              .error "Flow must connect User Query to LLM and Output"

/-- Workflow with two nodes of the same unrecognized type `"banana"` alongside
a well-formed `user_query -> llm_engine -> output` chain. -/
def wC1dup : WorkflowDefinition :=
  { nodes := [⟨"A", "user_query", {}⟩, ⟨"B", "llm_engine", {}⟩, ⟨"C", "output", {}⟩,
              ⟨"D", "banana", {}⟩, ⟨"E", "banana", {}⟩],
    edges := [⟨none, "A", "B"⟩, ⟨none, "B", "C"⟩] }

/-- The same workflow with the duplicated `"banana"` node removed. -/
def wC1nodup : WorkflowDefinition :=
  { nodes := [⟨"A", "user_query", {}⟩, ⟨"B", "llm_engine", {}⟩, ⟨"C", "output", {}⟩,
              ⟨"D", "banana", {}⟩],
    edges := [⟨none, "A", "B"⟩, ⟨none, "B", "C"⟩] }

/-- Workflow whose `output` node is disconnected: all nodes and edges are
individually well-formed, but no directed path reaches `"C"`. -/
def wC6 : WorkflowDefinition :=
  { nodes := [⟨"A", "user_query", {}⟩, ⟨"B", "llm_engine", {}⟩, ⟨"C", "output", {}⟩],
    edges := [⟨none, "A", "B"⟩] }

/-- Python `sep.join(parts)`: the separator appears exactly between
consecutive parts. -/
def sepJoin (sep : String) : List String → String
  | [] => ""
  | [p] => p
  | p :: rest => p ++ sep ++ sepJoin sep rest

/-- Python `opt or default` on an optional string: `None` and the empty string
are falsy and select the default. -/
def orDefault (o : Option String) (d : String) : String :=
  match o with
  | some s => if s == "" then d else s
  | none => d

/-- `build_prompt`: collect the present parts in fixed order — custom prompt
(if truthy), `Context` block (if any snippets), `Web search hints` block
(if any snippets), the question, the closing instruction — and join them with
a blank line. -/
def buildPrompt (question : String) (context webSnippets : List String)
    (customPrompt : Option String) : String :=
  let parts : List String :=
    (match customPrompt with
     | some p => if p == "" then [] else [p]
     | none => [])
    ++ (if context.isEmpty then [] else ["Context:\n" ++ sepJoin "\n---\n" context])
    ++ (if webSnippets.isEmpty then [] else ["Web search hints:\n" ++ sepJoin "\n" webSnippets])
    ++ ["Question: " ++ question]
    ++ ["Answer concisely. If unsure, say you are unsure."]
  sepJoin "\n\n" parts

/-- `check_throttle` for one client identity and one endpoint class, acting on
that identity's stored timestamp list: when throttling is enabled, drop
timestamps older than one minute; if any remain and the last one is closer
than `minInterval`, reject (leaving the stored list unchanged, as the code
only writes the list back on the allow path); otherwise append `now` to the
pruned list and allow.  Returns the decision and the new stored list. -/
def checkThrottle (enabled : Bool) (timestamps : List Rat) (now minInterval : Rat) :
    Bool × List Rat :=
  if !enabled then (true, timestamps)
  else
    let ts := timestamps.filter (fun x => decide (now - x < 60))
    match ts.getLast? with
    | some last =>
      if now - last < minInterval then (false, timestamps)
      else (true, ts ++ [now])
    | none => (true, ts ++ [now])

/-- Python `str.strip()` whitespace class (the characters occurring in
practice: space, tab, newline, carriage return, vertical tab, form feed). -/
def isPyWhitespace (c : Char) : Bool :=
  c == ' ' || c == '\t' || c == '\n' || c == '\r' || c == '\x0b' || c == '\x0c'

/-- Python `s.strip()` on a character list: drop whitespace from the front,
then from the back. -/
def stripChars (l : List Char) : List Char :=
  ((l.dropWhile isPyWhitespace).reverse.dropWhile isPyWhitespace).reverse

/-- A character list is stripped when neither end is whitespace. -/
def isStripped (l : List Char) : Bool :=
  (l.head?.all (fun c => !isPyWhitespace c)) && (l.getLast?.all (fun c => !isPyWhitespace c))

/-- The `while start < len(cleaned)` loop of `chunk_text`, with explicit fuel:
slice a window of `chunkSize` characters and advance the window start by
`chunkSize - overlap` (the Python `start = end - overlap`).  Fuel exhaustion
with the loop guard still true models the Python loop not terminating, and is
returned as `none`. -/
def chunkLoop (cleaned : List Char) (chunkSize overlap : Nat) :
    Nat → Nat → Option (List (List Char))
  | 0, start => if start < cleaned.length then none else some []
  | fuel + 1, start =>
    if start < cleaned.length then
      match chunkLoop cleaned chunkSize overlap fuel (start + chunkSize - overlap) with
      | some rest => some (((cleaned.drop start).take chunkSize) :: rest)
      | none => none
    else some []

/-- `chunk_text`: replace carriage returns and newlines by spaces, run the
sliding-window loop, then keep the stripped chunks that are nonempty.
`cleaned.length + 1` fuel is enough for every terminating run, since the
window start strictly increases while the loop guard holds; `none` means the
Python loop would not terminate for these parameters. -/
def chunkText (text : String) (chunkSize overlap : Nat) : Option (List String) :=
  let cleaned := text.toList.map (fun c => if c == '\r' || c == '\n' then ' ' else c)
  (chunkLoop cleaned chunkSize overlap (cleaned.length + 1) 0).map
    (fun chunks => ((chunks.map stripChars).filter (fun c => !c.isEmpty)).map
      (fun l => String.mk l))

/-- Embedding vectors are opaque values never inspected by the core. -/
abbrev Vec := List Int

/-- One recorded invocation of an external collaborator during `run_chat` or
`upload_knowledge`: the vector store (`get_or_create_collection`, `query`,
`add`), the embedding backend, SerpAPI web search, an LLM backend, or the
persistence layer (`save_chat_log`, `save_execution_log`,
`save_document_metadata`). -/
inductive Call where
  | getCollection (name : String)
  | embedTexts (texts : List String) (model : Option String)
  | queryCollection (collection : String) (vec : Vec) (k : Int)
  | webSearch (q : String)
  | genGemini (model : String) (prompt : String)
  | genOpenai (model : String) (messages : List (String × String))
  | upsertDocs (documents : List String)
  | saveDocMeta (collection : String) (chunkCount : Nat)
  | saveChatLog (message response provider : String) (contextUsed : Nat) (webUsed : Bool)
  | saveExecLog (status : String) (message : String) (response : Option String)
    (provider : Option String) (execTimeMs : Int) (errorMessage : Option String)
    (contextUsed : Nat) (webUsed : Bool)
deriving Repr, DecidableEq

/-- Oracle environment for `run_chat`: credential presence flags from
`Settings`, the external collaborators as fallible functions, and the elapsed
wall-clock milliseconds observed when a log record is written
(`int((time.time() - start_time) * 1000)`, abstracted as an oracle because
real time is outside the model). -/
structure Env where
  openaiKey : Bool
  geminiKey : Bool
  serpapiKey : Bool
  embed : List String → Option String → Except String (List Vec)
  query : String → Vec → Int → Except String (List String)
  search : String → Except String (List (Option String))
  llmOpenai : String → List (String × String) → Except String String
  llmGemini : String → String → Except String String
  elapsedMs : Int

/-- `ChatRequest`: workflow, message and optional history (a `None` history
and an empty history behave identically, so both are the empty list).  Each
history turn is a `(role, content)` pair; a missing key behaves as `""`. -/
structure ChatRequest where
  workflow : WorkflowDefinition
  message : String
  history : List (String × String) := []

/-- The success payload of `run_chat`. -/
structure ChatResponse where
  answer : String
  provider : String
  contextUsed : Nat
  contextSamples : List String
  webUsed : Bool
  webSamples : List String
  execTimeMs : Int
deriving Repr, DecidableEq

/-- `run_web_search`: without a SerpAPI key return empty with no call;
otherwise call the search backend once and keep the first three items whose
snippet-or-title is truthy (the loop appends truthy snippets and breaks at
`max_results = 3`). -/
def runWebSearch (env : Env) (q : String) : Except String (List String) × List Call :=
  if !env.serpapiKey then (.ok [], [])
  else
    match env.search q with
    | .error e => (.error e, [Call.webSearch q])
    | .ok organic => (.ok ((organic.filterMap id).take 3), [Call.webSearch q])

/-- History filter from `call_llm`: keep turns whose role is `user` or
`assistant` and whose content is truthy. -/
def filterHistory (history : List (String × String)) : List (String × String) :=
  history.filter (fun t => (t.1 == "user" || t.1 == "assistant") && t.2 != "")

/-- `call_llm`: the `gemini` provider requires the Gemini key and sends only
the prompt; every other provider value falls through to OpenAI, requires the
OpenAI key, and sends a fixed system message, the filtered history and the
prompt.  A missing credential raises before any backend call is recorded. -/
def callLLM (env : Env) (provider prompt : String) (model : Option String)
    (history : List (String × String)) : Except String String × List Call :=
  if provider == "gemini" then
    if !env.geminiKey then
      (.error "Gemini provider selected but GEMINI_API_KEY is missing", [])
    else
      let m := orDefault model "gemini-2.5-flash"
      (env.llmGemini m prompt, [Call.genGemini m prompt])
  else
    if !env.openaiKey then
      (.error "OpenAI provider selected but OPENAI_API_KEY is missing", [])
    else
      let m := orDefault model "gpt-4o-mini"
      let messages :=
        ("system", "You are an assistant that answers using provided context first. Be concise.")
          :: (filterHistory history ++ [("user", prompt)])
      (env.llmOpenai m messages, [Call.genOpenai m messages])

/-- The error-path `save_execution_log` record written by `run_chat`'s
exception handler: status `error`, the failure message as error detail, the
latency measured at the failure point, and zeroed usage counters. -/
def errLog (env : Env) (message e : String) : Call :=
  Call.saveExecLog "error" message none none env.elapsedMs (some e) 0 false

/-- The retrieval block of `run_chat`: with no knowledge node, do nothing;
otherwise read `collection_name` (default `"default"`), `top_k` (default 4,
clamped to at most 3) and the optional `embedding_model`, get the collection,
embed the message, and query the store, propagating failures (including the
`IndexError` a Python `[0]` on an empty embedding list would raise). -/
def retrievalStep (env : Env) (message : String) (kbNode : Option ComponentConfig) :
    Except String (List String) × List Call :=
  match kbNode with
  | none => (.ok [], [])
  | some kb =>
    let collectionName := kb.params.collectionName.getD "default"
    let topK : Int := min (kb.params.topK.getD 4) 3
    let embModel := kb.params.embeddingModel
    match env.embed [message] embModel with
    | .error e =>
      (.error e, [Call.getCollection collectionName, Call.embedTexts [message] embModel])
    | .ok vecs =>
      match vecs with
      | [] =>
        (.error "IndexError: list index out of range",
         [Call.getCollection collectionName, Call.embedTexts [message] embModel])
      | v :: _ =>
        match env.query collectionName v topK with
        | .error e =>
          (.error e,
           [Call.getCollection collectionName, Call.embedTexts [message] embModel,
            Call.queryCollection collectionName v topK])
        | .ok docs =>
          (.ok docs,
           [Call.getCollection collectionName, Call.embedTexts [message] embModel,
            Call.queryCollection collectionName v topK])

/-- The web-search block of `run_chat`: only when the LLM node's `web_search`
parameter is truthy, run the search and keep at most two snippets. -/
def webStepRun (env : Env) (message : String) (llmNode : ComponentConfig) :
    Except String (List String) × List Call :=
  if llmNode.params.webSearch.getD false then
    let r := runWebSearch env message
    (r.1.map (fun s => s.take 2), r.2)
  else (.ok [], [])

/-- `run_chat`: validate the topology, assemble retrieval context, optionally
web-search, compose the prompt, dispatch to the provider (the node's provider
if truthy, else OpenAI when its key is configured, else Gemini), and persist a
chat log plus a success execution log.  Any failure inside the `try` block is
caught, a single error execution log is written, and the error re-raised; the
function returns the result together with the ordered trace of collaborator
calls.  (A `byType` table without an `llm_engine` key would be a Python
`KeyError` inside the `try`, logged like any other failure; validation makes
this branch unreachable.) -/
def runChat (env : Env) (req : ChatRequest) : Except String ChatResponse × List Call :=
  let chatHistory := req.history.drop (req.history.length - 5)
  match validateTopology req.workflow with
  | .error e => (.error e, [errLog env req.message e])
  | .ok byType =>
    match byType.lookup "llm_engine" with
    | none =>
      (.error "KeyError: llm_engine", [errLog env req.message "KeyError: llm_engine"])
    | some llmNode =>
      match retrievalStep env req.message (byType.lookup "knowledge_base") with
      | (.error e, tr1) => (.error e, tr1 ++ [errLog env req.message e])
      | (.ok contextChunks, tr1) =>
        match webStepRun env req.message llmNode with
        | (.error e, tr2) => (.error e, tr1 ++ tr2 ++ [errLog env req.message e])
        | (.ok webSnippets, tr2) =>
          let prompt := buildPrompt req.message contextChunks webSnippets llmNode.params.prompt
          let provider :=
            orDefault llmNode.params.provider (if env.openaiKey then "openai" else "gemini")
          match callLLM env provider prompt llmNode.params.model chatHistory with
          | (.error e, tr3) => (.error e, tr1 ++ tr2 ++ tr3 ++ [errLog env req.message e])
          | (.ok answer, tr3) =>
            (.ok { answer := answer, provider := provider,
                   contextUsed := contextChunks.length,
                   contextSamples := contextChunks.take 1,
                   webUsed := !webSnippets.isEmpty,
                   webSamples := webSnippets.take 1,
                   execTimeMs := env.elapsedMs },
             tr1 ++ tr2 ++ tr3
               ++ [Call.saveChatLog req.message answer provider contextChunks.length
                     (!webSnippets.isEmpty),
                   Call.saveExecLog "success" req.message (some answer) (some provider)
                     env.elapsedMs none contextChunks.length (!webSnippets.isEmpty)])

/-- The execution-log records of a call trace. -/
def execLogsOf (tr : List Call) : List Call :=
  tr.filter (fun c =>
    match c with
    | Call.saveExecLog _ _ _ _ _ _ _ _ => true
    | _ => false)

/-- Calls that touch the embedding backend or the vector store. -/
def isRetrievalCall (c : Call) : Bool :=
  match c with
  | Call.getCollection _ => true
  | Call.embedTexts _ _ => true
  | Call.queryCollection _ _ _ => true
  | _ => false

/-- Oracle environment for `upload_knowledge`: throttle settings, the PDF
text-extraction result for the uploaded bytes, and the embedding oracle. -/
structure UploadEnv where
  throttleEnabled : Bool
  throttleDelay : Rat
  extract : Except String String
  embed : List String → Option String → Except String (List Vec)

/-- Query parameters of `upload_knowledge`; `chunk_size` and `chunk_overlap`
are caller-supplied and passed to `chunk_text` without validation. -/
structure UploadReq where
  collection : String := "default"
  chunkSize : Nat := 800
  chunkOverlap : Nat := 80
  embeddingModel : Option String := none

/-- `upload_knowledge`: throttle first (rejecting before any work), then
extract text, reject empty text, chunk (`none` models a non-terminating
`chunk_text` loop), embed, upsert into the collection and save document
metadata.  Returns the outcome (chunk count on success) and the collaborator
call trace, or `none` when `chunk_text` does not terminate. -/
def uploadKnowledge (uenv : UploadEnv) (ts : List Rat) (now : Rat) (req : UploadReq) :
    Option (Except String Nat × List Call) :=
  if !(checkThrottle uenv.throttleEnabled ts now uenv.throttleDelay).1 then
    some (.error "Too many upload requests. Please wait before uploading again.", [])
  else
    match uenv.extract with
    | .error e => some (.error e, [])
    | .ok text =>
      if text == "" then
        some (.error "Could not extract text from the uploaded file", [])
      else
        match chunkText text req.chunkSize req.chunkOverlap with
        | none => none
        | some chunks =>
          match uenv.embed chunks req.embeddingModel with
          | .error e => some (.error e, [Call.embedTexts chunks req.embeddingModel])
          | .ok _vecs =>
            some (.ok chunks.length,
              [Call.embedTexts chunks req.embeddingModel,
               Call.getCollection req.collection,
               Call.upsertDocs chunks,
               Call.saveDocMeta req.collection chunks.length])

/-- Every vector-store query in a trace targets collection `"default"` and
asks for exactly 3 results. -/
def queriesOk (tr : List Call) : Bool :=
  tr.all (fun c =>
    match c with
    | Call.queryCollection col _ k => col == "default" && k == 3
    | _ => true)

/-- Environment with no credentials configured and trivial collaborators. -/
def envTrivial : Env :=
  { openaiKey := false, geminiKey := false, serpapiKey := false,
    embed := fun _ _ => .ok [], query := fun _ _ _ => .ok [],
    search := fun _ => .ok [], llmOpenai := fun _ _ => .ok "",
    llmGemini := fun _ _ => .ok "", elapsedMs := 7 }

/-- Minimal valid workflow `user_query -> llm_engine -> output`. -/
def wfValid : WorkflowDefinition :=
  { nodes := [⟨"A", "user_query", {}⟩, ⟨"B", "llm_engine", {}⟩, ⟨"C", "output", {}⟩],
    edges := [⟨none, "A", "B"⟩, ⟨none, "B", "C"⟩] }

/-- The `by_type` table `validate_topology` produces for `wfValid`. -/
def btValid : List (String × ComponentConfig) :=
  [("user_query", ⟨"A", "user_query", {}⟩), ("llm_engine", ⟨"B", "llm_engine", {}⟩),
   ("output", ⟨"C", "output", {}⟩)]

/-- An empty workflow, rejected by the first validation rule. -/
def wfNoNodes : WorkflowDefinition := { nodes := [], edges := [] }

def reqNoNodes : ChatRequest := { workflow := wfNoNodes, message := "hi" }

def reqValid : ChatRequest := { workflow := wfValid, message := "hi" }

/-- Valid workflow with a knowledge node carrying no parameters. -/
def wfKb : WorkflowDefinition :=
  { nodes := [⟨"A", "user_query", {}⟩, ⟨"K", "knowledge_base", {}⟩,
              ⟨"B", "llm_engine", {}⟩, ⟨"C", "output", {}⟩],
    edges := [⟨none, "A", "K"⟩, ⟨none, "K", "B"⟩, ⟨none, "B", "C"⟩] }

def reqKb : ChatRequest := { workflow := wfKb, message := "What is X?" }

/-- The `by_type` table for `wfKb`. -/
def btKb : List (String × ComponentConfig) :=
  [("user_query", ⟨"A", "user_query", {}⟩), ("knowledge_base", ⟨"K", "knowledge_base", {}⟩),
   ("llm_engine", ⟨"B", "llm_engine", {}⟩), ("output", ⟨"C", "output", {}⟩)]

/-- Environment with an OpenAI key and deterministic collaborators. -/
def envC3 : Env :=
  { openaiKey := true, geminiKey := false, serpapiKey := false,
    embed := fun _ _ => .ok [[1]], query := fun _ _ _ => .ok ["doc1"],
    search := fun _ => .ok [], llmOpenai := fun _ _ => .ok "ans",
    llmGemini := fun _ _ => .ok "", elapsedMs := 5 }

/-- Upload environment whose throttle applies (minimum interval 2 s). -/
def uenvThrottled : UploadEnv :=
  { throttleEnabled := true, throttleDelay := 2, extract := .ok "x",
    embed := fun _ _ => .ok [] }

/-- Upload environment that reaches the chunker with throttling disabled. -/
def uenvDiverge : UploadEnv :=
  { throttleEnabled := false, throttleDelay := 0, extract := .ok "hello",
    embed := fun _ _ => .ok [] }

/-- Splitting the count of edges whose source is unvisited when a new node `c`
is marked visited: the edges out of `c` are exactly the difference. -/
theorem length_filter_source_split (edges : List Edge) (visited : List String) (c : String)
    (hc : c ∉ visited) :
    (edges.filter (fun e => !decide (e.source ∈ c :: visited))).length
      + (edges.filter (fun e => e.source == c)).length
    = (edges.filter (fun e => !decide (e.source ∈ visited))).length := by
  induction edges with
  | nil => simp
  | cons e t ih =>
    by_cases h1 : e.source = c
    · simp only [List.filter_cons, h1, hc]
      simp [hc] at ih ⊢
      omega
    · by_cases h2 : e.source ∈ visited
      · simp only [List.filter_cons]
        simp [h1, h2] at ih ⊢
        omega
      · simp only [List.filter_cons]
        simp [h1, h2] at ih ⊢
        omega

theorem bfsAux_nil (edges : List Edge) (fuel : Nat) (visited : List String) :
    bfsAux edges fuel [] visited = visited := by
  cases fuel <;> rfl

/-- Fuel irrelevance: as soon as the fuel dominates the loop potential
(queue length plus number of edges out of unvisited sources), adding more fuel
does not change the result.  Hence `bfsAux` with that much fuel computes the
same visited set as the unbounded Python `while` loop. -/
theorem bfsAux_add_fuel (edges : List Edge) :
    ∀ fuel queue visited,
      queue.length + (edges.filter (fun e => !decide (e.source ∈ visited))).length ≤ fuel →
      ∀ k, bfsAux edges (fuel + k) queue visited = bfsAux edges fuel queue visited := by
  intro fuel
  induction fuel with
  | zero =>
    intro queue visited h k
    have hq : queue = [] := by
      cases queue with
      | nil => rfl
      | cons a t => simp at h
    subst hq
    simp [bfsAux_nil]
  | succ f ih =>
    intro queue visited h k
    cases queue with
    | nil => simp [bfsAux_nil]
    | cons c rest =>
      have hfk : f + 1 + k = (f + k) + 1 := by omega
      rw [hfk]
      by_cases hc : c ∈ visited
      · have hcb : visited.contains c = true := by simp [hc]
        simp only [bfsAux, hcb, if_true]
        apply ih rest visited ?_ k
        simp at h ⊢
        omega
      · have hcb : visited.contains c = false := by simp [hc]
        simp only [bfsAux, hcb, Bool.false_eq_true, if_false]
        apply ih (rest ++ adjTargets edges c) (c :: visited) ?_ k
        have hsplit := length_filter_source_split edges visited c hc
        have hadj : (adjTargets edges c).length = (edges.filter (fun e => e.source == c)).length := by
          simp [adjTargets]
        simp at h hsplit hadj ⊢
        omega

theorem bfs_fuel_irrelevant (edges : List Edge) (start : String) (k : Nat) :
    bfsAux edges (edges.length + 1 + k) [start] [] = bfs edges start := by
  apply bfsAux_add_fuel
  simp
  omega

/-- Lookup in an appended association list is `none` only if it is `none` in
both halves. -/
theorem lookup_append_eq_none {β : Type} (a b : List (String × β)) (k : String)
    (h : (a ++ b).lookup k = none) : a.lookup k = none ∧ b.lookup k = none := by
  induction a with
  | nil => simpa using h
  | cons p t ih =>
    simp only [List.cons_append, List.lookup] at h ⊢
    by_cases hk : k == p.1
    · simp [hk] at h
    · simp only [hk, Bool.false_eq_true, if_false] at h ⊢
      exact ih h

/-- A successful `by_type` build means no node's type was already a key of the
accumulator. -/
theorem buildByType_ok_lookup_none :
    ∀ (nodes : List ComponentConfig) (acc : List (String × ComponentConfig))
      (res : List (String × ComponentConfig)),
      buildByType nodes acc = .ok res → ∀ n ∈ nodes, acc.lookup n.type = none := by
  intro nodes
  induction nodes with
  | nil => intro acc res _ n hn; simp at hn
  | cons nd t ih =>
    intro acc res h n hn
    unfold buildByType at h
    by_cases hl : (acc.lookup nd.type).isSome
    · simp [hl] at h
    · simp only [hl, Bool.false_eq_true, if_false] at h
      rcases List.mem_cons.mp hn with h1 | h1
      · subst h1
        exact Option.not_isSome_iff_eq_none.mp hl
      · have := ih (acc ++ [(nd.type, nd)]) res h n h1
        exact (lookup_append_eq_none _ _ _ this).1

/-- A successful `by_type` build implies the node type strings are pairwise
distinct: `validate_topology`'s uniqueness rule applies to every type string,
recognized or not. -/
theorem buildByType_ok_nodup :
    ∀ (nodes : List ComponentConfig) (acc : List (String × ComponentConfig))
      (res : List (String × ComponentConfig)),
      buildByType nodes acc = .ok res → (nodes.map (fun n => n.type)).Nodup := by
  intro nodes
  induction nodes with
  | nil => intro _ _ _; simp
  | cons nd t ih =>
    intro acc res h
    unfold buildByType at h
    by_cases hl : (acc.lookup nd.type).isSome
    · simp [hl] at h
    · simp only [hl, Bool.false_eq_true, if_false] at h
      have hrest := ih (acc ++ [(nd.type, nd)]) res h
      have hnotin : nd.type ∉ t.map (fun n => n.type) := by
        intro hmem
        rcases List.mem_map.mp hmem with ⟨m, hm, hmt⟩
        have hnone := buildByType_ok_lookup_none t (acc ++ [(nd.type, nd)]) res h m hm
        have := (lookup_append_eq_none _ _ _ hnone).2
        simp [List.lookup, hmt] at this
      simpa using And.intro hnotin hrest

/-- C1 (amended): any graph accepted by topology validation has pairwise
distinct node type strings — the uniqueness rule applies to every role string,
so duplicated *unrecognized* roles are rejected just like recognized ones. -/
theorem c1_all_duplicate_roles_rejected (w : WorkflowDefinition)
    (bt : List (String × ComponentConfig)) (h : validateTopology w = .ok bt) :
    (w.nodes.map (fun n => n.type)).Nodup := by
  unfold validateTopology at h
  by_cases h1 : w.nodes.isEmpty
  · simp [h1] at h
  · simp only [h1, Bool.false_eq_true, if_false] at h
    by_cases h2 : w.edges.isEmpty
    · simp [h2] at h
    · simp only [h2, Bool.false_eq_true, if_false] at h
      by_cases h3 : edgesValid w
      · simp only [h3, Bool.not_true, Bool.false_eq_true, if_false] at h
        rcases hb : buildByType w.nodes [] with e | byType
        · rw [hb] at h; simp at h
        · exact buildByType_ok_nodup w.nodes [] byType hb
      · simp [h3] at h

/-- C1 (counterexample): a graph whose only duplicated role string is the
unrecognized `"banana"` is rejected by validation with the duplicate-node
error, while the identical graph without the duplication is accepted — so
unrecognized role strings are *not* exempt from the uniqueness rule. -/
theorem c1_counterexample :
    validateTopology wC1dup = .error "Only one banana node is allowed for now"
      ∧ (validateTopology wC1nodup).isOk = true := by
  constructor
  · rfl
  · rfl

/-- C1 witness: the amended theorem applied to a concrete accepted workflow. -/
theorem c1_witness : (wC1nodup.nodes.map (fun n => n.type)).Nodup :=
  c1_all_duplicate_roles_rejected wC1nodup
    [("user_query", ⟨"A", "user_query", {}⟩), ("llm_engine", ⟨"B", "llm_engine", {}⟩),
     ("output", ⟨"C", "output", {}⟩), ("banana", ⟨"D", "banana", {}⟩)] rfl

/-- C6: if a workflow passes the structural checks (nonempty, known endpoints,
unique types, required nodes present) but the directed breadth-first traversal
from the `user_query` node fails to visit the `llm_engine` node or the
`output` node, `validate_topology` rejects it with the connectivity error. -/
theorem c6_unreachable_required_node_fails (w : WorkflowDefinition)
    (bt : List (String × ComponentConfig)) (uq llm outNode : ComponentConfig)
    (h1 : w.nodes.isEmpty = false) (h2 : w.edges.isEmpty = false)
    (h3 : edgesValid w = true)
    (h4 : buildByType w.nodes [] = .ok bt)
    (h5 : bt.lookup "user_query" = some uq)
    (h6 : bt.lookup "llm_engine" = some llm)
    (h7 : bt.lookup "output" = some outNode)
    (h8 : ((bfs w.edges uq.id).contains llm.id && (bfs w.edges uq.id).contains outNode.id) = false) :
    validateTopology w = .error "Flow must connect User Query to LLM and Output" := by
  unfold validateTopology
  rw [h1, h2, h3, h4]
  simp only [h5, h6, h7]
  simp at h8
  simp
  tauto

/-- C6 witness: the reachability theorem applied to the concrete disconnected
workflow. -/
theorem c6_witness :
    validateTopology wC6 = .error "Flow must connect User Query to LLM and Output" :=
  c6_unreachable_required_node_fails wC6
    [("user_query", ⟨"A", "user_query", {}⟩), ("llm_engine", ⟨"B", "llm_engine", {}⟩),
     ("output", ⟨"C", "output", {}⟩)]
    ⟨"A", "user_query", {}⟩ ⟨"B", "llm_engine", {}⟩ ⟨"C", "output", {}⟩
    rfl rfl rfl rfl rfl rfl rfl (by decide)

/-- C7: prompt composition is order-stable and leaves no stray separators or
empty headers.  With no context, no web snippets and no custom prompt the
output is exactly the question block followed by the closing instruction; with
all optional blocks present the output is exactly prefix, labeled context
block, labeled web block, question, closing instruction, in that order,
separated by blank lines. -/
theorem c7_build_prompt_blocks :
    (∀ q : String,
      buildPrompt q [] [] none
        = ("Question: " ++ q) ++ "\n\n" ++ "Answer concisely. If unsure, say you are unsure.")
    ∧ (∀ (q p : String) (ctx web : List String), p ≠ "" → ctx ≠ [] → web ≠ [] →
      buildPrompt q ctx web (some p)
        = p ++ "\n\n" ++ ("Context:\n" ++ sepJoin "\n---\n" ctx)
            ++ "\n\n" ++ ("Web search hints:\n" ++ sepJoin "\n" web)
            ++ "\n\n" ++ ("Question: " ++ q)
            ++ "\n\n" ++ "Answer concisely. If unsure, say you are unsure.") := by
  constructor
  · intro q
    rfl
  · intro q p ctx web hp hctx hweb
    cases ctx with
    | nil => exact absurd rfl hctx
    | cons c cs =>
      cases web with
      | nil => exact absurd rfl hweb
      | cons v vs =>
        have hpb : (p == "") = false := by
          simpa using hp
        simp only [buildPrompt, hpb, Bool.false_eq_true, if_false, List.isEmpty_cons,
          List.nil_append, List.cons_append, sepJoin]
        simp [String.append_assoc]

/-- C7 witness: both conjuncts applied at concrete inputs. -/
theorem c7_witness :
    buildPrompt "What is X?" [] [] none
      = ("Question: " ++ "What is X?") ++ "\n\n"
          ++ "Answer concisely. If unsure, say you are unsure."
    ∧ buildPrompt "What is X?" ["c1", "c2"] ["w1"] (some "Be formal.")
      = "Be formal." ++ "\n\n" ++ ("Context:\n" ++ sepJoin "\n---\n" ["c1", "c2"])
          ++ "\n\n" ++ ("Web search hints:\n" ++ sepJoin "\n" ["w1"])
          ++ "\n\n" ++ ("Question: " ++ "What is X?")
          ++ "\n\n" ++ "Answer concisely. If unsure, say you are unsure." :=
  ⟨c7_build_prompt_blocks.1 "What is X?",
   c7_build_prompt_blocks.2 "What is X?" "Be formal." ["c1", "c2"] ["w1"]
     (by decide) (by decide) (by decide)⟩

/-- C8: the admission check prunes entries older than a minute, rejects when
the pruned list is nonempty and the last request is closer than the class
minimum interval, and otherwise records `now` and allows.  In particular with
`minInterval = 1` second, starting from an empty window: a first call allows
and records `t`; a second call 0.5 s later rejects; a second call 1.1 s later
allows; a 100 s old entry is pruned and does not block; and a 2 s old entry is
kept but does not block. -/
theorem c8_check_throttle_scenarios (t : Rat) :
    checkThrottle true [] t 1 = (true, [t])
    ∧ checkThrottle true [t] (t + 1/2) 1 = (false, [t])
    ∧ checkThrottle true [t] (t + 11/10) 1 = (true, [t, t + 11/10])
    ∧ checkThrottle true [t - 100] t 1 = (true, [t])
    ∧ checkThrottle true [t - 2] t 1 = (true, [t - 2, t]) := by
  refine ⟨?_, ?_, ?_, ?_, ?_⟩
  · simp [checkThrottle]
  · have e : t + 1/2 - t = 1/2 := by ring
    simp [checkThrottle, e]
    norm_num
  · have e : t + 11/10 - t = 11/10 := by ring
    simp [checkThrottle, e]
    norm_num
  · have e : t - (t - 100) = 100 := by ring
    simp [checkThrottle, e]
    norm_num
  · have e : t - (t - 2) = 2 := by ring
    simp [checkThrottle, e]
    norm_num

theorem dropWhile_head_not (p : Char → Bool) (y : List Char) :
    ∀ c, (y.dropWhile p).head? = some c → p c = false := by
  induction y with
  | nil => intro c h; simp at h
  | cons a t ih =>
    intro c h
    by_cases ha : p a
    · rw [List.dropWhile_cons_of_pos ha] at h
      exact ih c h
    · rw [List.dropWhile_cons_of_neg ha] at h
      simp at h
      rw [← h]
      simpa using ha

theorem dropWhile_getLast_of_ne_nil (p : Char → Bool) (y : List Char)
    (h : y.dropWhile p ≠ []) : (y.dropWhile p).getLast? = y.getLast? := by
  induction y with
  | nil => simp at h
  | cons a t ih =>
    by_cases ha : p a
    · rw [List.dropWhile_cons_of_pos ha] at h ⊢
      have ht : t ≠ [] := by
        intro hnil
        rw [hnil] at h
        simp at h
      rw [ih h]
      cases t with
      | nil => exact absurd rfl ht
      | cons b t2 => rfl
    · rw [List.dropWhile_cons_of_neg ha]

theorem stripChars_length_le (l : List Char) : (stripChars l).length ≤ l.length := by
  unfold stripChars
  have h1 := (List.dropWhile_sublist (l := l) isPyWhitespace).length_le
  have h2 := (List.dropWhile_sublist
    (l := (l.dropWhile isPyWhitespace).reverse) isPyWhitespace).length_le
  simp only [List.length_reverse] at *
  omega

theorem isStripped_stripChars (l : List Char) : isStripped (stripChars l) = true := by
  unfold stripChars isStripped
  rw [List.head?_reverse, List.getLast?_reverse]
  refine (Bool.and_eq_true _ _).mpr ⟨?_, ?_⟩
  · by_cases hw : (l.dropWhile isPyWhitespace).reverse.dropWhile isPyWhitespace = []
    · rw [hw]; rfl
    · rw [dropWhile_getLast_of_ne_nil _ _ hw, List.getLast?_reverse]
      cases hh : (l.dropWhile isPyWhitespace).head? with
      | none => rfl
      | some c =>
        have := dropWhile_head_not isPyWhitespace l c hh
        simp [Option.all, this]
  · cases hh : ((l.dropWhile isPyWhitespace).reverse.dropWhile isPyWhitespace).head? with
    | none => rfl
    | some c =>
      have := dropWhile_head_not isPyWhitespace (l.dropWhile isPyWhitespace).reverse c hh
      simp [Option.all, this]

theorem chunkLoop_isSome (cleaned : List Char) (chunkSize overlap : Nat)
    (hov : overlap < chunkSize) :
    ∀ fuel start, cleaned.length - start ≤ fuel →
      (chunkLoop cleaned chunkSize overlap fuel start).isSome = true := by
  intro fuel
  induction fuel with
  | zero =>
    intro start h
    have hs : ¬ start < cleaned.length := by omega
    simp [chunkLoop, hs]
  | succ f ih =>
    intro start h
    by_cases hs : start < cleaned.length
    · have h2 : cleaned.length - (start + chunkSize - overlap) ≤ f := by omega
      have hrec := ih (start + chunkSize - overlap) h2
      simp only [chunkLoop, hs, if_true]
      rcases hres : chunkLoop cleaned chunkSize overlap f (start + chunkSize - overlap) with _ | rest
      · rw [hres] at hrec; simp at hrec
      · simp
    · simp [chunkLoop, hs]

theorem chunkLoop_chunk_length (cleaned : List Char) (chunkSize overlap : Nat) :
    ∀ fuel start chunks, chunkLoop cleaned chunkSize overlap fuel start = some chunks →
      ∀ l ∈ chunks, l.length ≤ chunkSize := by
  intro fuel
  induction fuel with
  | zero =>
    intro start chunks h l hl
    unfold chunkLoop at h
    by_cases hs : start < cleaned.length
    · simp [hs] at h
    · simp [hs] at h
      subst h
      simp at hl
  | succ f ih =>
    intro start chunks h l hl
    simp only [chunkLoop] at h
    by_cases hs : start < cleaned.length
    · simp only [hs, if_true] at h
      rcases hres : chunkLoop cleaned chunkSize overlap f (start + chunkSize - overlap)
          with _ | rest
      · rw [hres] at h; simp at h
      · rw [hres] at h
        simp at h
        rw [← h] at hl
        rcases List.mem_cons.mp hl with h1 | h1
        · subst h1
          exact List.length_take_le chunkSize (cleaned.drop start)
        · exact ih (start + chunkSize - overlap) rest hres l h1
    · simp [hs] at h
      subst h
      simp at hl

theorem execLogsOf_append (a b : List Call) :
    execLogsOf (a ++ b) = execLogsOf a ++ execLogsOf b := by
  simp [execLogsOf]

theorem retrievalStep_execLogs (env : Env) (m : String) (kb : Option ComponentConfig) :
    execLogsOf (retrievalStep env m kb).2 = [] := by
  unfold retrievalStep
  rcases kb with _ | kbn
  · rfl
  · rcases he : env.embed [m] kbn.params.embeddingModel with e | vecs
    · simp [he, execLogsOf]
    · rcases vecs with _ | ⟨v, vs⟩
      · simp [he, execLogsOf]
      · rcases hq : env.query (kbn.params.collectionName.getD "default") v
            (min (kbn.params.topK.getD 4) 3) with e | docs
        · simp [he, hq, execLogsOf]
        · simp [he, hq, execLogsOf]

theorem runWebSearch_execLogs (env : Env) (q : String) :
    execLogsOf (runWebSearch env q).2 = [] := by
  unfold runWebSearch
  rcases env.serpapiKey with _ | _
  · rfl
  · rcases env.search q with e | organic
    · simp [execLogsOf]
    · simp [execLogsOf]

theorem webStepRun_execLogs (env : Env) (m : String) (llmNode : ComponentConfig) :
    execLogsOf (webStepRun env m llmNode).2 = [] := by
  unfold webStepRun
  by_cases hws : llmNode.params.webSearch.getD false
  · simp only [hws, if_true]
    exact runWebSearch_execLogs env m
  · simp [hws, execLogsOf]

theorem callLLM_execLogs (env : Env) (provider prompt : String) (model : Option String)
    (history : List (String × String)) :
    execLogsOf (callLLM env provider prompt model history).2 = [] := by
  unfold callLLM
  by_cases hp : (provider == "gemini") = true
  · simp only [hp, if_true]
    by_cases hg : env.geminiKey
    · simp [hg, execLogsOf]
    · simp [hg, execLogsOf]
  · simp only [Bool.not_eq_true] at hp
    simp only [hp, Bool.false_eq_true, if_false]
    by_cases ho : env.openaiKey
    · simp [ho, execLogsOf]
    · simp [ho, execLogsOf]

theorem retrievalStep_none (env : Env) (m : String) :
    retrievalStep env m none = (.ok [], []) := rfl

theorem webStepRun_no_retrieval (env : Env) (m : String) (llmNode : ComponentConfig) :
    ((webStepRun env m llmNode).2.all (fun c => !isRetrievalCall c)) = true := by
  unfold webStepRun runWebSearch
  by_cases hws : llmNode.params.webSearch.getD false
  · simp only [hws, if_true]
    rcases env.serpapiKey with _ | _
    · rfl
    · rcases env.search m with e | organic
      · simp [isRetrievalCall]
      · simp [isRetrievalCall]
  · simp [hws]

theorem callLLM_no_retrieval (env : Env) (provider prompt : String) (model : Option String)
    (history : List (String × String)) :
    ((callLLM env provider prompt model history).2.all (fun c => !isRetrievalCall c)) = true := by
  unfold callLLM
  by_cases hp : (provider == "gemini") = true
  · simp only [hp, if_true]
    by_cases hg : env.geminiKey
    · simp [hg, isRetrievalCall]
    · simp [hg]
  · simp only [Bool.not_eq_true] at hp
    simp only [hp, Bool.false_eq_true, if_false]
    by_cases ho : env.openaiKey
    · simp [ho, isRetrievalCall]
    · simp [ho]

/-- Core case analysis for the orchestrator's failure handling: whenever
`run_chat` ends in an error, the call trace contains exactly one execution-log
record — the error outcome with the failure message. -/
theorem runChat_error_cases (env : Env) (req : ChatRequest) :
    ∀ res tr, runChat env req = (res, tr) → ∀ e, res = .error e →
      execLogsOf tr
        = [Call.saveExecLog "error" req.message none none env.elapsedMs (some e) 0 false] := by
  intro res tr hrt e hres
  unfold runChat at hrt
  rcases hv : validateTopology req.workflow with e0 | bt
  · rw [hv] at hrt
    cases hrt
    cases hres
    simp [execLogsOf, errLog]
  · rw [hv] at hrt
    dsimp only at hrt
    rcases hllm : List.lookup "llm_engine" bt with _ | llmNode
    · rw [hllm] at hrt
      cases hrt
      cases hres
      simp [execLogsOf, errLog]
    · rw [hllm] at hrt
      dsimp only at hrt
      rcases hr1 : retrievalStep env req.message (List.lookup "knowledge_base" bt)
        with ⟨res1, tr1⟩
      rw [hr1] at hrt
      have h1 : execLogsOf tr1 = [] := by
        have h0 := retrievalStep_execLogs env req.message (List.lookup "knowledge_base" bt)
        rw [hr1] at h0
        exact h0
      rcases res1 with e1 | ctx
      · cases hrt
        cases hres
        rw [execLogsOf_append, h1]
        simp [execLogsOf, errLog]
      · dsimp only at hrt
        rcases hw : webStepRun env req.message llmNode with ⟨res2, tr2⟩
        rw [hw] at hrt
        have h2 : execLogsOf tr2 = [] := by
          have h0 := webStepRun_execLogs env req.message llmNode
          rw [hw] at h0
          exact h0
        rcases res2 with e2 | web
        · cases hrt
          cases hres
          rw [execLogsOf_append, execLogsOf_append, h1, h2]
          simp [execLogsOf, errLog]
        · dsimp only at hrt
          rcases hc : callLLM env
              (orDefault llmNode.params.provider (if env.openaiKey then "openai" else "gemini"))
              (buildPrompt req.message ctx web llmNode.params.prompt)
              llmNode.params.model (req.history.drop (req.history.length - 5))
            with ⟨res3, tr3⟩
          rw [hc] at hrt
          have h3 : execLogsOf tr3 = [] := by
            have h0 := callLLM_execLogs env
              (orDefault llmNode.params.provider (if env.openaiKey then "openai" else "gemini"))
              (buildPrompt req.message ctx web llmNode.params.prompt)
              llmNode.params.model (req.history.drop (req.history.length - 5))
            rw [hc] at h0
            exact h0
          rcases res3 with e3 | answer
          · cases hrt
            cases hres
            rw [execLogsOf_append, execLogsOf_append, execLogsOf_append, h1, h2, h3]
            simp [execLogsOf, errLog]
          · cases hrt
            simp at hres

/-- C4: for every request that fails after admission — during validation,
retrieval, web search, composition or generation — the orchestrator records
exactly one outcome record, with status `error`, the latency observed at the
failure point, and the failure message as error detail, before re-raising. -/
theorem c4_failure_logs_one_error_outcome (env : Env) (req : ChatRequest) (e : String)
    (h : (runChat env req).1 = .error e) :
    execLogsOf (runChat env req).2
      = [Call.saveExecLog "error" req.message none none env.elapsedMs (some e) 0 false] :=
  runChat_error_cases env req (runChat env req).1 (runChat env req).2 rfl e h

/-- Case analysis for `run_chat` on a validated workflow with no
`knowledge_base` node: the trace never touches the embedding backend or the
vector store, and a successful response reports an empty context. -/
theorem runChat_no_kb_cases (env : Env) (req : ChatRequest)
    (bt : List (String × ComponentConfig))
    (hv : validateTopology req.workflow = .ok bt)
    (hkb : List.lookup "knowledge_base" bt = none) :
    ∀ res tr, runChat env req = (res, tr) →
      (tr.all (fun c => !isRetrievalCall c)) = true
      ∧ ∀ resp, res = .ok resp → resp.contextUsed = 0 ∧ resp.contextSamples = [] := by
  intro res tr hrt
  unfold runChat at hrt
  rw [hv] at hrt
  dsimp only at hrt
  rcases hllm : List.lookup "llm_engine" bt with _ | llmNode
  · rw [hllm] at hrt
    cases hrt
    constructor
    · simp [isRetrievalCall, errLog]
    · intro resp hresp
      simp at hresp
  · rw [hllm] at hrt
    dsimp only at hrt
    rw [hkb, retrievalStep_none] at hrt
    dsimp only at hrt
    rcases hw : webStepRun env req.message llmNode with ⟨res2, tr2⟩
    rw [hw] at hrt
    have h2 : (tr2.all (fun c => !isRetrievalCall c)) = true := by
      have h0 := webStepRun_no_retrieval env req.message llmNode
      rw [hw] at h0
      exact h0
    rcases res2 with e2 | web
    · cases hrt
      constructor
      · simp only [List.all_append, h2]
        simp [isRetrievalCall, errLog]
      · intro resp hresp
        simp at hresp
    · dsimp only at hrt
      rcases hc : callLLM env
          (orDefault llmNode.params.provider (if env.openaiKey then "openai" else "gemini"))
          (buildPrompt req.message [] web llmNode.params.prompt)
          llmNode.params.model (req.history.drop (req.history.length - 5))
        with ⟨res3, tr3⟩
      rw [hc] at hrt
      have h3 : (tr3.all (fun c => !isRetrievalCall c)) = true := by
        have h0 := callLLM_no_retrieval env
          (orDefault llmNode.params.provider (if env.openaiKey then "openai" else "gemini"))
          (buildPrompt req.message [] web llmNode.params.prompt)
          llmNode.params.model (req.history.drop (req.history.length - 5))
        rw [hc] at h0
        exact h0
      rcases res3 with e3 | answer
      · cases hrt
        constructor
        · simp only [List.all_append, h2, h3]
          simp [isRetrievalCall, errLog]
        · intro resp hresp
          simp at hresp
      · cases hrt
        constructor
        · simp only [List.all_append, h2, h3]
          simp [isRetrievalCall]
        · intro resp hresp
          cases hresp
          exact ⟨rfl, rfl⟩

/-- C5: for every message and every validated workflow with no
`knowledge_base` node, retrieval assembly contributes no context (a successful
response reports zero snippets) and the execution makes no embedding call and
no vector-store access at all. -/
theorem c5_no_kb_no_retrieval_calls (env : Env) (req : ChatRequest)
    (bt : List (String × ComponentConfig))
    (hv : validateTopology req.workflow = .ok bt)
    (hkb : List.lookup "knowledge_base" bt = none) :
    (((runChat env req).2).all (fun c => !isRetrievalCall c)) = true
    ∧ ∀ resp, (runChat env req).1 = .ok resp →
        resp.contextUsed = 0 ∧ resp.contextSamples = [] :=
  runChat_no_kb_cases env req bt hv hkb (runChat env req).1 (runChat env req).2 rfl

theorem min_int_4_3 : min (4 : Int) 3 = 3 := by
  rw [min_def]
  norm_num

theorem retrievalStep_queriesOk (env : Env) (m : String) (kb : ComponentConfig)
    (htop : kb.params.topK = none) (hcol : kb.params.collectionName = none) :
    queriesOk (retrievalStep env m (some kb)).2 = true := by
  unfold retrievalStep
  rcases he : env.embed [m] kb.params.embeddingModel with e | vecs
  · simp [he, queriesOk]
  · rcases vecs with _ | ⟨v, vs⟩
    · simp [he, queriesOk]
    · rcases hq : env.query (kb.params.collectionName.getD "default") v
          (min (kb.params.topK.getD 4) 3) with e | docs
      · rw [hcol, htop] at hq
        simp only [Option.getD_none, min_int_4_3] at hq
        simp [he, hq, queriesOk, htop, hcol, min_int_4_3]
      · rw [hcol, htop] at hq
        simp only [Option.getD_none, min_int_4_3] at hq
        simp [he, hq, queriesOk, htop, hcol, min_int_4_3]

theorem webStepRun_queriesOk (env : Env) (m : String) (llmNode : ComponentConfig) :
    queriesOk (webStepRun env m llmNode).2 = true := by
  unfold webStepRun runWebSearch
  by_cases hws : llmNode.params.webSearch.getD false
  · simp only [hws, if_true]
    rcases env.serpapiKey with _ | _
    · rfl
    · rcases env.search m with e | organic
      · simp [queriesOk]
      · simp [queriesOk]
  · simp [hws, queriesOk]

theorem callLLM_queriesOk (env : Env) (provider prompt : String) (model : Option String)
    (history : List (String × String)) :
    queriesOk (callLLM env provider prompt model history).2 = true := by
  unfold callLLM
  by_cases hp : (provider == "gemini") = true
  · simp only [hp, if_true]
    by_cases hg : env.geminiKey
    · simp [hg, queriesOk]
    · simp [hg, queriesOk]
  · simp only [Bool.not_eq_true] at hp
    simp only [hp, Bool.false_eq_true, if_false]
    by_cases ho : env.openaiKey
    · simp [ho, queriesOk]
    · simp [ho, queriesOk]

/-- With default parameters (no `top_k`, no `collection_name`, no
`embedding_model`) and a successful embed and query, the retrieval step asks
the store for exactly 3 results from `"default"` and returns the store's
snippet list unchanged. -/
theorem retrievalStep_success (env : Env) (m : String) (kb : ComponentConfig)
    (v : Vec) (vs : List Vec) (docs : List String)
    (htop : kb.params.topK = none) (hcol : kb.params.collectionName = none)
    (hemb : kb.params.embeddingModel = none)
    (he : env.embed [m] none = .ok (v :: vs))
    (hq : env.query "default" v 3 = .ok docs) :
    retrievalStep env m (some kb)
      = (.ok docs,
         [Call.getCollection "default", Call.embedTexts [m] none,
          Call.queryCollection "default" v 3]) := by
  unfold retrievalStep
  dsimp only
  rw [hcol, htop, hemb]
  simp only [Option.getD_none, min_int_4_3]
  rw [he]
  dsimp only
  rw [hq]

theorem runChat_kb_default_cases (env : Env) (req : ChatRequest)
    (bt : List (String × ComponentConfig)) (kb : ComponentConfig)
    (hv : validateTopology req.workflow = .ok bt)
    (hkb : List.lookup "knowledge_base" bt = some kb)
    (htop : kb.params.topK = none) (hcol : kb.params.collectionName = none) :
    ∀ res tr, runChat env req = (res, tr) → queriesOk tr = true := by
  intro res tr hrt
  unfold runChat at hrt
  rw [hv] at hrt
  dsimp only at hrt
  rcases hllm : List.lookup "llm_engine" bt with _ | llmNode
  · rw [hllm] at hrt
    cases hrt
    simp [queriesOk, errLog]
  · rw [hllm] at hrt
    dsimp only at hrt
    rw [hkb] at hrt
    rcases hr1 : retrievalStep env req.message (some kb) with ⟨res1, tr1⟩
    rw [hr1] at hrt
    have h1 : queriesOk tr1 = true := by
      have h0 := retrievalStep_queriesOk env req.message kb htop hcol
      rw [hr1] at h0
      exact h0
    unfold queriesOk at h1
    rcases res1 with e1 | ctx
    · cases hrt
      unfold queriesOk
      simp only [List.all_append, h1]
      simp [errLog]
    · dsimp only at hrt
      rcases hw : webStepRun env req.message llmNode with ⟨res2, tr2⟩
      rw [hw] at hrt
      have h2 : queriesOk tr2 = true := by
        have h0 := webStepRun_queriesOk env req.message llmNode
        rw [hw] at h0
        exact h0
      unfold queriesOk at h2
      rcases res2 with e2 | web
      · cases hrt
        unfold queriesOk
        simp only [List.all_append, h1, h2]
        simp [errLog]
      · dsimp only at hrt
        rcases hc : callLLM env
            (orDefault llmNode.params.provider (if env.openaiKey then "openai" else "gemini"))
            (buildPrompt req.message ctx web llmNode.params.prompt)
            llmNode.params.model (req.history.drop (req.history.length - 5))
          with ⟨res3, tr3⟩
        rw [hc] at hrt
        have h3 : queriesOk tr3 = true := by
          have h0 := callLLM_queriesOk env
            (orDefault llmNode.params.provider (if env.openaiKey then "openai" else "gemini"))
            (buildPrompt req.message ctx web llmNode.params.prompt)
            llmNode.params.model (req.history.drop (req.history.length - 5))
          rw [hc] at h0
          exact h0
        unfold queriesOk at h3
        rcases res3 with e3 | answer
        · cases hrt
          unfold queriesOk
          simp only [List.all_append, h1, h2, h3]
          simp [errLog]
        · cases hrt
          unfold queriesOk
          simp only [List.all_append, h1, h2, h3]
          simp

theorem runChat_kb_success_cases (env : Env) (req : ChatRequest)
    (bt : List (String × ComponentConfig)) (kb : ComponentConfig)
    (v : Vec) (vs : List Vec) (docs : List String)
    (hv : validateTopology req.workflow = .ok bt)
    (hkb : List.lookup "knowledge_base" bt = some kb)
    (htop : kb.params.topK = none) (hcol : kb.params.collectionName = none)
    (hemb : kb.params.embeddingModel = none)
    (he : env.embed [req.message] none = .ok (v :: vs))
    (hq : env.query "default" v 3 = .ok docs) :
    ∀ res tr, runChat env req = (res, tr) → ∀ resp, res = .ok resp →
      resp.contextUsed = docs.length ∧ resp.contextSamples = docs.take 1 := by
  intro res tr hrt resp hresp
  unfold runChat at hrt
  rw [hv] at hrt
  dsimp only at hrt
  rcases hllm : List.lookup "llm_engine" bt with _ | llmNode
  · rw [hllm] at hrt
    cases hrt
    simp at hresp
  · rw [hllm] at hrt
    dsimp only at hrt
    rw [hkb, retrievalStep_success env req.message kb v vs docs htop hcol hemb he hq] at hrt
    dsimp only at hrt
    rcases hw : webStepRun env req.message llmNode with ⟨res2, tr2⟩
    rw [hw] at hrt
    rcases res2 with e2 | web
    · cases hrt
      simp at hresp
    · dsimp only at hrt
      rcases hc : callLLM env
          (orDefault llmNode.params.provider (if env.openaiKey then "openai" else "gemini"))
          (buildPrompt req.message docs web llmNode.params.prompt)
          llmNode.params.model (req.history.drop (req.history.length - 5))
        with ⟨res3, tr3⟩
      rw [hc] at hrt
      rcases res3 with e3 | answer
      · cases hrt
        simp at hresp
      · cases hrt
        cases hresp
        exact ⟨rfl, rfl⟩

/-- C3 (amended): when a `knowledge_base` node is present with no `top_k`,
`collection_name` or `embedding_model` parameters, retrieval uses collection
`"default"` and requests exactly `min(4, 3) = 3` snippets — the default of 4
is clamped to the safety ceiling of 3 — and on success the response reports
the store's snippet list unchanged (its length and first element, with no
re-ranking or truncation). -/
theorem c3_retrieval_defaults (env : Env) (req : ChatRequest)
    (bt : List (String × ComponentConfig)) (kb : ComponentConfig)
    (hv : validateTopology req.workflow = .ok bt)
    (hkb : List.lookup "knowledge_base" bt = some kb)
    (htop : kb.params.topK = none) (hcol : kb.params.collectionName = none)
    (hemb : kb.params.embeddingModel = none) :
    queriesOk (runChat env req).2 = true
    ∧ ∀ (v : Vec) (vs : List Vec) (docs : List String) (resp : ChatResponse),
        env.embed [req.message] none = .ok (v :: vs) →
        env.query "default" v 3 = .ok docs →
        (runChat env req).1 = .ok resp →
        resp.contextUsed = docs.length ∧ resp.contextSamples = docs.take 1 :=
  ⟨runChat_kb_default_cases env req bt kb hv hkb htop hcol
     (runChat env req).1 (runChat env req).2 rfl,
   fun v vs docs resp he hq hresp =>
     runChat_kb_success_cases env req bt kb v vs docs hv hkb htop hcol hemb he hq
       (runChat env req).1 (runChat env req).2 rfl resp hresp⟩

/-- C3 (counterexample): running the workflow whose knowledge node gives no
`top_k` issues a vector-store query with `k = 3` and none with `k = 4` — the
effective request is not for the claimed default of 4 snippets, because
`min(int(kb_params.get("top_k", 4)), 3)` clamps the default itself. -/
theorem c3_counterexample :
    ((runChat envC3 reqKb).2.any (fun c => match c with
      | Call.queryCollection _ _ k => k == 3
      | _ => false)) = true
    ∧ ((runChat envC3 reqKb).2.any (fun c => match c with
      | Call.queryCollection _ _ k => k == 4
      | _ => false)) = false := by
  constructor
  · rfl
  · rfl

/-- C3 witness: the amended theorem applied to the concrete knowledge-node
workflow. -/
theorem c3_witness : queriesOk (runChat envC3 reqKb).2 = true :=
  (c3_retrieval_defaults envC3 reqKb btKb ⟨"K", "knowledge_base", {}⟩
    rfl rfl rfl rfl rfl).1

/-- C4 witness: a request failing validation produces exactly the one error
outcome record. -/
theorem c4_witness :
    execLogsOf (runChat envTrivial reqNoNodes).2
      = [Call.saveExecLog "error" reqNoNodes.message none none envTrivial.elapsedMs
          (some "Workflow must have at least one node") 0 false] :=
  c4_failure_logs_one_error_outcome envTrivial reqNoNodes
    "Workflow must have at least one node" rfl

/-- C5 witness: the retrieval-free execution applied to the concrete
knowledge-free workflow. -/
theorem c5_witness :
    (((runChat envTrivial reqValid).2).all (fun c => !isRetrievalCall c)) = true :=
  (c5_no_kb_no_retrieval_calls envTrivial reqValid btValid rfl rfl).1

/-- C2 (amended): admission rejections short-circuit with no external call at
all, and topology-validation failures make no embedding, web-search,
vector-store or generation call — but they do write exactly one persistence
record (the error outcome) before re-raising. -/
theorem c2_rejection_short_circuit :
    (∀ (env : Env) (req : ChatRequest) (e : String),
      validateTopology req.workflow = .error e →
      runChat env req
        = (.error e,
           [Call.saveExecLog "error" req.message none none env.elapsedMs (some e) 0 false]))
    ∧ (∀ (uenv : UploadEnv) (ts : List Rat) (now : Rat) (req : UploadReq),
      (checkThrottle uenv.throttleEnabled ts now uenv.throttleDelay).1 = false →
      uploadKnowledge uenv ts now req
        = some (.error "Too many upload requests. Please wait before uploading again.", [])) := by
  constructor
  · intro env req e hv
    unfold runChat
    rw [hv]
    rfl
  · intro uenv ts now req hth
    unfold uploadKnowledge
    rw [hth]
    rfl

/-- C2 (counterexample): a request whose graph fails validation still causes
a persistence call — the error outcome record — so the rejection is not free
of calls to the persistence collaborator. -/
theorem c2_counterexample :
    validateTopology reqNoNodes.workflow = .error "Workflow must have at least one node"
    ∧ ((runChat envTrivial reqNoNodes).2.any (fun c => match c with
        | Call.saveExecLog _ _ _ _ _ _ _ _ => true
        | _ => false)) = true := by
  constructor
  · rfl
  · rfl

/-- C2 witness: both short-circuit behaviours at concrete inputs. -/
theorem c2_witness :
    runChat envTrivial reqNoNodes
      = (.error "Workflow must have at least one node",
         [Call.saveExecLog "error" reqNoNodes.message none none envTrivial.elapsedMs
           (some "Workflow must have at least one node") 0 false])
    ∧ uploadKnowledge uenvThrottled [0] 1 {}
      = some (.error "Too many upload requests. Please wait before uploading again.", []) :=
  ⟨c2_rejection_short_circuit.1 envTrivial reqNoNodes
     "Workflow must have at least one node" rfl,
   c2_rejection_short_circuit.2 uenvThrottled [0] 1 {}
     (by norm_num [checkThrottle, uenvThrottled])⟩

/-- C9: generation dispatch with a selected provider whose credential is not
configured fails with the typed missing-credential error and records no call
to any backend. -/
theorem c9_missing_credential_no_call (env : Env) (provider prompt : String)
    (model : Option String) (history : List (String × String)) :
    (provider = "gemini" → env.geminiKey = false →
      callLLM env provider prompt model history
        = (.error "Gemini provider selected but GEMINI_API_KEY is missing", []))
    ∧ (provider ≠ "gemini" → env.openaiKey = false →
      callLLM env provider prompt model history
        = (.error "OpenAI provider selected but OPENAI_API_KEY is missing", [])) := by
  constructor
  · intro hp hk
    subst hp
    simp [callLLM, hk]
  · intro hp hk
    have hpb : (provider == "gemini") = false := by simpa using hp
    simp [callLLM, hpb, hk]

/-- C9 witness: both providers with missing credentials at concrete inputs. -/
theorem c9_witness :
    callLLM envTrivial "gemini" "p" none []
      = (.error "Gemini provider selected but GEMINI_API_KEY is missing", [])
    ∧ callLLM envTrivial "openai" "p" none []
      = (.error "OpenAI provider selected but OPENAI_API_KEY is missing", []) :=
  ⟨(c9_missing_credential_no_call envTrivial "gemini" "p" none []).1 rfl rfl,
   (c9_missing_credential_no_call envTrivial "openai" "p" none []).2 (by decide) rfl⟩

/-- C10: the sliding-window chunker terminates whenever `overlap < chunk_size`
(the window start strictly increases), and every returned chunk is nonempty,
whitespace-stripped and at most `chunk_size` characters; the precondition is
not enforced by the upload endpoint, which passes the caller-supplied
`chunk_size = chunk_overlap = 2` straight into a non-terminating loop
(modelled as `none`). -/
theorem c10_chunker_termination_and_bounds :
    (∀ (text : String) (chunkSize overlap : Nat), overlap < chunkSize →
      ∃ chunks, chunkText text chunkSize overlap = some chunks
        ∧ ∀ s ∈ chunks, s ≠ "" ∧ s.length ≤ chunkSize ∧ isStripped s.toList = true)
    ∧ uploadKnowledge uenvDiverge [] 0
        { collection := "default", chunkSize := 2, chunkOverlap := 2, embeddingModel := none }
      = none := by
  constructor
  · intro text chunkSize overlap hov
    set cleaned := text.toList.map (fun c => if c == '\r' || c == '\n' then ' ' else c)
      with hcl
    have hsome := chunkLoop_isSome cleaned chunkSize overlap hov (cleaned.length + 1) 0
      (by omega)
    rcases hraw : chunkLoop cleaned chunkSize overlap (cleaned.length + 1) 0 with _ | raw
    · rw [hraw] at hsome
      simp at hsome
    · refine ⟨((raw.map stripChars).filter (fun c => !c.isEmpty)).map (fun l => String.mk l),
        ?_, ?_⟩
      · unfold chunkText
        dsimp only
        rw [hraw]
        rfl
      · intro s hs
        rcases List.mem_map.mp hs with ⟨l, hlf, rfl⟩
        have hfp := List.mem_filter.mp hlf
        rcases List.mem_map.mp hfp.1 with ⟨l0, hl0, hstr⟩
        have hne : (stripChars l0).isEmpty = false := by
          rw [hstr]
          simpa using hfp.2
        have hnil : stripChars l0 ≠ [] := by
          intro hx
          rw [hx] at hne
          simp at hne
        subst hstr
        refine ⟨?_, ?_, ?_⟩
        · intro hc
          apply hnil
          simpa using congrArg String.data hc
        · have hlen0 := chunkLoop_chunk_length cleaned chunkSize overlap
            (cleaned.length + 1) 0 raw hraw l0 hl0
          have hstriple := stripChars_length_le l0
          have hmk : (String.mk (stripChars l0)).length = (stripChars l0).length := rfl
          rw [hmk]
          omega
        · exact isStripped_stripChars l0
  · rfl

/-- C10 witness: the termination part applied at concrete parameters. -/
theorem c10_witness :
    0 < 2 ∧ (∃ chunks, chunkText "ab" 2 0 = some chunks
      ∧ ∀ s ∈ chunks, s ≠ "" ∧ s.length ≤ 2 ∧ isStripped s.toList = true) :=
  ⟨by decide, c10_chunker_termination_and_bounds.1 "ab" 2 0 (by decide)⟩
